import Mathlib

/-!
Shallow embedding of `hooks/tk-3dsmax_scene_operations.py` (class
`BreakdownSceneOperations`), a Shotgun/Toolkit breakdown hook for 3ds Max.

Modelling conventions:
* Python strings are `List Char` (`Str`); a string is "truthy" iff non-empty.
* Python dictionaries (the scan records, the `item` argument of `update`,
  and `extra_data`) are association lists `List (String × PyVal)`.
* The pymxs host runtime is a `Scene` value: the two XRef collections are
  lists of named entries, `getClassInstances(BitmapTexture)` is a list of
  bitmaps, `sceneMaterials` a list of materials.  `os.path.exists` and
  `os.path.normpath` are environment-supplied functions stored in the scene.
* A host call that can raise is modelled with an explicit fault flag in the
  scene (`fault` on an XRef entry makes `getMAXFileObject` raise for that
  name; `*_namesFault` makes `getMAXFileObjectNames` raise;
  `bitmapsFault` makes `getClassInstances` raise).  `try/except` blocks in
  the Python are translated by matching on the `Except` result and
  returning what the handler returns (the partial accumulator, `None`,
  `False`, ...).
* MAXScript object identity (the `==` between a material map slot and a
  bitmap texture) is modelled by `Nat` object ids; a bitmap's id is its
  `handle`.  A map-slot attribute is `Option Nat`: `none` covers both
  "attribute absent" (`hasattr` false) and "slot holds no bitmap" — in both
  cases the Python check of that slot yields `False`.
* `update` mutates host objects; we model its observable host effects as an
  ordered trace `List Effect`, and unguarded Python exceptions (the
  `item[...]` subscripts and `path.replace` before any `try`) as
  `Except PyErr`.
-/

/-- Python strings, as lists of characters. -/
abbrev Str := List Char

/-- Python values stored in the dictionaries this hook builds and receives:
strings, integers, nested dicts, and `None`. -/
inductive PyVal where
  | str (s : Str)
  | num (n : Nat)
  | dict (d : List (String × PyVal))
  | nonev
  deriving Repr

/-- A Python dict with string keys, as an association list. -/
abbrev Dict := List (String × PyVal)

/-- First-match key lookup in a dict (`d[k]` when present, `d.get(k)`). -/
def dictGet (d : Dict) (k : String) : Option PyVal :=
  (d.find? (fun kv => kv.1 == k)).map Prod.snd

/-- Python exceptions that the embedded code can raise or swallow. -/
inductive PyErr where
  | keyError
  | nameError
  | attrError
  | hostError
  deriving DecidableEq, Repr

/-- Python truthiness of a `PyVal` (`if bitmap_handle:` etc.). -/
def pyTruthy : PyVal → Bool
  | .str s => !s.isEmpty
  | .num n => n != 0
  | .dict d => !d.isEmpty
  | .nonev => false

/-- Python `material_name or "unknown"` on an optional string: `None` and the
empty string are falsy and select the default. -/
def pyOrStr (v : Option Str) (dflt : Str) : Str :=
  match v with
  | Option.none => dflt
  | Option.some s => if s = [] then dflt else s

/-- An XRef record held by the host: whether it has a `filename` attribute,
and that attribute's (stringified) value. -/
structure XRefObj where
  hasFilename : Bool
  filename : Str
  deriving DecidableEq, Repr

/-- One name in an XRef collection, what `getMAXFileObject` returns for that
name (`none` models the host returning Python `None`), and whether that
lookup raises. -/
structure XRefEntry where
  name : Str
  obj : Option XRefObj
  fault : Bool
  deriving DecidableEq, Repr

/-- A `BitmapTexture` instance: its node handle, its `name`, whether it has a
`filename` attribute, and that attribute's value. -/
structure Bitmap where
  handle : Nat
  name : Str
  hasFilename : Bool
  filename : Str
  deriving DecidableEq, Repr

/-- A 3ds Max material as probed by `_bitmap_in_material`: the five named map
slots, an optional `materialList` of optional sub-materials, an optional
`name` attribute, and other map slots the hook never reads. -/
inductive Material where
  | mk (diffuseMap bumpMap specularMap opacityMap reflectionMap : Option Nat)
       (materialList : Option (List (Option Material)))
       (name : Option Str)
       (otherMaps : List Nat)

/-- The optional `name` attribute of a material (`None` models
`hasattr(material, "name")` being false). -/
def Material.nameAttr : Material → Option Str
  | .mk _ _ _ _ _ _ nm _ => nm

/-- The host runtime state visible to this hook. -/
structure Scene where
  xrefObjects : List XRefEntry
  xrefObjectsNamesFault : Bool
  xrefScenes : List XRefEntry
  xrefScenesNamesFault : Bool
  bitmaps : List Bitmap
  bitmapsFault : Bool
  sceneMaterials : List Material
  pathExists : Str → Bool
  normpath : Str → Str

/-- Host call `getMAXFileObject(Name(coll), n)`: find the first entry with
that name; a faulted entry raises, an unknown name yields `None`. -/
def getMAXFileObject (coll : List XRefEntry) (n : Str) :
    Except PyErr (Option XRefObj) :=
  match coll.find? (fun e => e.name == n) with
  | Option.none => .ok Option.none
  | Option.some e => if e.fault then .error .hostError else .ok e.obj

/-- A dict built by `_scan_xref_objects` / `_scan_xref_scenes` for one XRef. -/
def mkXRefDict (nm ntype p : Str) (i : Nat) : Dict :=
  [("node_name", .str nm), ("node_type", .str ntype), ("path", .str p),
   ("extra_data", .dict [("xref_index", .num i)])]

/-- Loop body of `_scan_xref_objects` / `_scan_xref_scenes`: walk the name
list with its indices, look each name up, and append a record when the
object exists, has a `filename` attribute, and that filename is a non-empty
path that exists on disk.  A raising lookup is caught by the surrounding
`except`, which returns the records accumulated so far. -/
def scanXRefLoop (s : Scene) (coll : List XRefEntry) (ntype : Str)
    (names : List (Nat × Str)) (acc : List Dict) : List Dict :=
  match names with
  | [] => acc
  | (i, nm) :: rest =>
    match getMAXFileObject coll nm with
    | .error _ => acc
    | .ok Option.none => scanXRefLoop s coll ntype rest acc
    | .ok (Option.some o) =>
      if o.hasFilename then
        if !o.filename.isEmpty && s.pathExists o.filename then
          scanXRefLoop s coll ntype rest
            (acc ++ [mkXRefDict nm ntype (s.normpath o.filename) i])
        else scanXRefLoop s coll ntype rest acc
      else scanXRefLoop s coll ntype rest acc

/-- `_scan_xref_objects`: a raising `getMAXFileObjectNames` is caught and
yields the empty accumulator; otherwise iterate the names. -/
def scan_xref_objects (s : Scene) : List Dict :=
  if s.xrefObjectsNamesFault then []
  else
    let names := s.xrefObjects.map XRefEntry.name
    if names.isEmpty then []
    else scanXRefLoop s s.xrefObjects "xref_object".data names.enum []

/-- `_scan_xref_scenes`: identical to `_scan_xref_objects` but over the
`XRefScenes` collection with node type `xref_scene`. -/
def scan_xref_scenes (s : Scene) : List Dict :=
  if s.xrefScenesNamesFault then []
  else
    let names := s.xrefScenes.map XRefEntry.name
    if names.isEmpty then []
    else scanXRefLoop s s.xrefScenes "xref_scene".data names.enum []

/-- One slot check of `_bitmap_in_material`: `hasattr(material, slot) and
material.slot == bitmap`, with object identity as `Nat` ids. -/
def slotHits (slot : Option Nat) (h : Nat) : Bool :=
  slot == Option.some h

mutual

/-- `_bitmap_in_material`: the bitmap (identified by its handle) sits in one
of the five named map slots, or recursively in some non-null entry of the
`materialList` when that attribute exists. -/
def bitmap_in_material (h : Nat) : Material → Bool
  | .mk d bu sp op re Option.none _ _ =>
    slotHits d h || slotHits bu h || slotHits sp h || slotHits op h ||
      slotHits re h
  | .mk d bu sp op re (Option.some subs) _ _ =>
    slotHits d h || slotHits bu h || slotHits sp h || slotHits op h ||
      slotHits re h || subsContain h subs

/-- The `for sub_material in material.materialList` loop of
`_bitmap_in_material`: null sub-materials are skipped. -/
def subsContain (h : Nat) : List (Option Material) → Bool
  | [] => false
  | Option.none :: rest => subsContain h rest
  | Option.some m :: rest => bitmap_in_material h m || subsContain h rest

end

/-- `_get_material_name_for_bitmap`: return, for the first scene material
containing the bitmap, `str(material.name)` when it has a `name` attribute
and `None` when it does not; `None` when no material contains it. -/
def get_material_name_for_bitmap (mats : List Material) (h : Nat) :
    Option Str :=
  match mats with
  | [] => Option.none
  | m :: rest =>
    if bitmap_in_material h m then m.nameAttr
    else get_material_name_for_bitmap rest h

/-- Python `"%s_bitmap_%s" % (material_name or "unknown", bitmap.name or
"unnamed")`. -/
def bitmapNodeName (matName : Option Str) (bname : Str) : Str :=
  pyOrStr matName "unknown".data ++ "_bitmap_".data ++
    pyOrStr (Option.some bname) "unnamed".data

/-- The `material_name` value stored in a bitmap record's `extra_data`. -/
def matNameVal : Option Str → PyVal
  | Option.some s => .str s
  | Option.none => .nonev

/-- A dict built by `_scan_material_bitmaps` for one bitmap texture. -/
def mkBitmapDict (nodeName p : Str) (handle : Nat) (matName : Option Str) :
    Dict :=
  [("node_name", .str nodeName), ("node_type", .str "bitmap_texture".data),
   ("path", .str p),
   ("extra_data", .dict [("bitmap_handle", .num handle),
                         ("material_name", matNameVal matName)])]

/-- Loop body of `_scan_material_bitmaps`: for each bitmap with a truthy
`filename` attribute whose path is non-empty and exists, find the owning
material's name and append a record. -/
def scanBitmapsLoop (s : Scene) (bs : List Bitmap) (acc : List Dict) :
    List Dict :=
  match bs with
  | [] => acc
  | b :: rest =>
    if b.hasFilename && !b.filename.isEmpty then
      if !b.filename.isEmpty && s.pathExists b.filename then
        let matName := get_material_name_for_bitmap s.sceneMaterials b.handle
        scanBitmapsLoop s rest
          (acc ++ [mkBitmapDict (bitmapNodeName matName b.name)
                     (s.normpath b.filename) b.handle matName])
      else scanBitmapsLoop s rest acc
    else scanBitmapsLoop s rest acc

/-- `_scan_material_bitmaps`: a raising `getClassInstances` is caught and
yields the empty accumulator. -/
def scan_material_bitmaps (s : Scene) : List Dict :=
  if s.bitmapsFault then [] else scanBitmapsLoop s s.bitmaps []

/-- `scan_scene`: start from an empty list and extend it with the XRef
object, XRef scene and bitmap scans, in that order. -/
def scan_scene (s : Scene) : List Dict :=
  let refs : List Dict := []
  let refs := refs ++ scan_xref_objects s
  let refs := refs ++ scan_xref_scenes s
  let refs := refs ++ scan_material_bitmaps s
  refs

/-- `_get_xref_objects`: its loop body reads the never-assigned variable
`xref_name` (the loop iterates `object_name`), so the first iteration raises
`NameError`; over an empty name list the loop body never runs and the
function returns normally.  A raising `getMAXFileObjectNames` is not guarded
here (there is no `try`), so that fault propagates as well. -/
def get_xref_objects (s : Scene) : Except PyErr Unit :=
  if s.xrefObjectsNamesFault then .error .hostError
  else match s.xrefObjects.map XRefEntry.name with
       | [] => .ok ()
       | _ :: _ => .error .nameError

/-- Observable host mutations and reload calls performed by `update`, in
program order. -/
inductive Effect where
  | setXRefFilename (coll : String) (nm : Str) (p : Str)
  | reloadMAXFile (coll : String) (nm : Str)
  | setBitmapFilename (handle : Nat) (p : Str)
  | bitmapReload (handle : Nat)
  deriving DecidableEq, Repr

/-- Python `d[k]`: raises `KeyError` when the key is absent. -/
def pyIndex (d : Dict) (k : String) : Except PyErr PyVal :=
  match dictGet d k with
  | Option.none => .error .keyError
  | Option.some v => .ok v

/-- Python `v.get(k, dflt)`: a dict yields the stored or default value, any
other value has no `get` attribute and raises. -/
def pyGetAttrDefault (v : PyVal) (k : String) (dflt : PyVal) :
    Except PyErr PyVal :=
  match v with
  | .dict d => .ok ((dictGet d k).getD dflt)
  | _ => .error .attrError

/-- Backslash-to-forward-slash substitution on a string.  The pattern of
`path.replace` in `update` is the single character backslash, so Python's
`str.replace` is exactly character-wise substitution. -/
def replaceBS (cs : Str) : Str :=
  cs.map (fun c => if c == '\\' then '/' else c)

/-- Python `path.replace` applied to the value stored under `"path"`: only a
string has a `replace` attribute, anything else raises. -/
def pyReplaceBackslash : PyVal → Except PyErr Str
  | .str cs => .ok (replaceBS cs)
  | _ => .error .attrError

/-- Python `v == "lit"` for an arbitrary dict value: equality with a string
literal never raises and only a string can compare equal. -/
def pyEqStr : PyVal → Str → Bool
  | .str s, t => s == t
  | _, _ => false

/-- Shared body of `_update_xref_object` and `_update_xref_scene` (the two
Python functions are textually identical up to the collection name): inside
`try`, read `extra_data.get("xref_index", 0)`, look the node name up in the
collection, and when an object comes back set its `filename` and then call
`reloadMAXFile`; every raising step is caught by the `except`, every failed
lookup only logs.  The returned trace lists the host effects in order. -/
def updateXRefCommon (coll : List XRefEntry) (collName : String)
    (nodeName : PyVal) (path : Str) (extraData : PyVal) : List Effect :=
  match pyGetAttrDefault extraData "xref_index" (.num 0) with
  | .error _ => []
  | .ok _ =>
    match nodeName with
    | .str nm =>
      match getMAXFileObject coll nm with
      | .error _ => []
      | .ok Option.none => []
      | .ok (Option.some _) =>
        [.setXRefFilename collName nm path, .reloadMAXFile collName nm]
    | _ => []

/-- `_update_xref_object`. -/
def update_xref_object (s : Scene) (nodeName : PyVal) (path : Str)
    (extraData : PyVal) : List Effect :=
  updateXRefCommon s.xrefObjects "XRefObjects" nodeName path extraData

/-- `_update_xref_scene`. -/
def update_xref_scene (s : Scene) (nodeName : PyVal) (path : Str)
    (extraData : PyVal) : List Effect :=
  updateXRefCommon s.xrefScenes "XRefScenes" nodeName path extraData

/-- `_update_bitmap_texture`: read `extra_data.get("bitmap_handle")`; a falsy
handle (`None`, `0`, ...) only logs, otherwise `maxOps.getNodeByHandle` looks
the bitmap up by handle and, when found, its `filename` is set and then
`reload()` is called.  Raising steps are caught by the `except`. -/
def update_bitmap_texture (s : Scene) (path : Str) (extraData : PyVal) :
    List Effect :=
  match pyGetAttrDefault extraData "bitmap_handle" PyVal.nonev with
  | .error _ => []
  | .ok hv =>
    if pyTruthy hv then
      match hv with
      | .num h =>
        match s.bitmaps.find? (fun b => b.handle == h) with
        | Option.some _ => [.setBitmapFilename h path, .bitmapReload h]
        | Option.none => []
      | _ => []
    else []

/-- `update`: the four reads of `item` and the `path.replace` happen before
any `try`, so a missing key raises `KeyError` and a non-string path raises
`AttributeError` to the caller; then the node type is dispatched, an unknown
type only logging a warning. -/
def update (s : Scene) (item : Dict) : Except PyErr (List Effect) :=
  match pyIndex item "node_name" with
  | .error e => .error e
  | .ok nodeName =>
    match pyIndex item "node_type" with
    | .error e => .error e
    | .ok nodeType =>
      match pyIndex item "path" with
      | .error e => .error e
      | .ok path0 =>
        let extraData := (dictGet item "extra_data").getD (.dict [])
        match pyReplaceBackslash path0 with
        | .error e => .error e
        | .ok path =>
          if pyEqStr nodeType "xref_object".data then
            .ok (update_xref_object s nodeName path extraData)
          else if pyEqStr nodeType "xref_scene".data then
            .ok (update_xref_scene s nodeName path extraData)
          else if pyEqStr nodeType "bitmap_texture".data then
            .ok (update_bitmap_texture s path extraData)
          else
            .ok []

/-- Modelled from the spec: the repository holds a second, near-duplicate
copy of the hook file that is not present under src/.  Per the spec, the
copy with material-graph traversal "differs from the other only by adding
material-graph traversal to locate which material owns a given bitmap", so
the simpler copy's bitmap-scan loop is the same loop with no owning-material
lookup: no material is ever associated with a bitmap. -/
def scanBitmapsLoopSimple (s : Scene) (bs : List Bitmap) (acc : List Dict) :
    List Dict :=
  match bs with
  | [] => acc
  | b :: rest =>
    if b.hasFilename && !b.filename.isEmpty then
      if !b.filename.isEmpty && s.pathExists b.filename then
        scanBitmapsLoopSimple s rest
          (acc ++ [mkBitmapDict (bitmapNodeName Option.none b.name)
                     (s.normpath b.filename) b.handle Option.none])
      else scanBitmapsLoopSimple s rest acc
    else scanBitmapsLoopSimple s rest acc

/-- Modelled from the spec: `_scan_material_bitmaps` of the simpler
duplicate copy, without material-graph traversal. -/
def scan_material_bitmaps_simple (s : Scene) : List Dict :=
  if s.bitmapsFault then [] else scanBitmapsLoopSimple s s.bitmaps []

/-- Modelled from the spec: `scan_scene` of the simpler duplicate copy; the
XRef scans are shared verbatim with the traversal-bearing copy. -/
def scan_scene_simple (s : Scene) : List Dict :=
  let refs : List Dict := []
  let refs := refs ++ scan_xref_objects s
  let refs := refs ++ scan_xref_scenes s
  let refs := refs ++ scan_material_bitmaps_simple s
  refs

/-- Modelled from the spec: `update` of the simpler duplicate copy, which
the spec describes as identical in behaviour (the two copies differ only in
the bitmap-scan traversal). -/
def update_simple (s : Scene) (item : Dict) : Except PyErr (List Effect) :=
  match pyIndex item "node_name" with
  | .error e => .error e
  | .ok nodeName =>
    match pyIndex item "node_type" with
    | .error e => .error e
    | .ok nodeType =>
      match pyIndex item "path" with
      | .error e => .error e
      | .ok path0 =>
        let extraData := (dictGet item "extra_data").getD (.dict [])
        match pyReplaceBackslash path0 with
        | .error e => .error e
        | .ok path =>
          if pyEqStr nodeType "xref_object".data then
            .ok (update_xref_object s nodeName path extraData)
          else if pyEqStr nodeType "xref_scene".data then
            .ok (update_xref_scene s nodeName path extraData)
          else if pyEqStr nodeType "bitmap_texture".data then
            .ok (update_bitmap_texture s path extraData)
          else
            .ok []

/-- The path written by an effect, when the effect is a `filename`
assignment. -/
def effectWrittenPath : Effect → Option Str
  | .setXRefFilename _ _ p => Option.some p
  | .setBitmapFilename _ p => Option.some p
  | _ => Option.none

/-- Specification-side containment predicate, written from the claim's
words: the bitmap equals one of the material's five maps (`diffuseMap`,
`bumpMap`, `specularMap`, `opacityMap`, `reflectionMap`), or some non-null
sub-material in the material's `materialList` recursively contains it. -/
inductive ContainsSpec (h : Nat) : Material → Prop where
  | diffuse (d bu sp op re : Option Nat) (ml : Option (List (Option Material)))
      (nm : Option Str) (o : List Nat) :
      d = Option.some h → ContainsSpec h (.mk d bu sp op re ml nm o)
  | bump (d bu sp op re : Option Nat) (ml : Option (List (Option Material)))
      (nm : Option Str) (o : List Nat) :
      bu = Option.some h → ContainsSpec h (.mk d bu sp op re ml nm o)
  | specular (d bu sp op re : Option Nat) (ml : Option (List (Option Material)))
      (nm : Option Str) (o : List Nat) :
      sp = Option.some h → ContainsSpec h (.mk d bu sp op re ml nm o)
  | opacity (d bu sp op re : Option Nat) (ml : Option (List (Option Material)))
      (nm : Option Str) (o : List Nat) :
      op = Option.some h → ContainsSpec h (.mk d bu sp op re ml nm o)
  | reflection (d bu sp op re : Option Nat) (ml : Option (List (Option Material)))
      (nm : Option Str) (o : List Nat) :
      re = Option.some h → ContainsSpec h (.mk d bu sp op re ml nm o)
  | sub (d bu sp op re : Option Nat) (subs : List (Option Material))
      (nm : Option Str) (o : List Nat) (m : Material) :
      Option.some m ∈ subs → ContainsSpec h m →
      ContainsSpec h (.mk d bu sp op re (Option.some subs) nm o)

/-- Example XRef object with a filename. -/
def exXRefObj : XRefObj := ⟨true, "A.max".data⟩

/-- Example XRef collection entry resolving to `exXRefObj`. -/
def exEntry : XRefEntry := ⟨"A".data, Option.some exXRefObj, false⟩

/-- Example XRef collection entry whose lookup raises. -/
def faultEntry : XRefEntry := ⟨"F".data, Option.none, true⟩

/-- Example bitmap texture with handle 7. -/
def exBitmap : Bitmap := ⟨7, "B".data, true, "t.png".data⟩

/-- Example bitmap texture whose node handle is 0 (falsy in Python). -/
def zeroBitmap : Bitmap := ⟨0, "Z".data, true, "z.png".data⟩

/-- Example material named `Mat` holding bitmap 7 in its diffuse slot. -/
def namedMat : Material :=
  .mk (Option.some 7) Option.none Option.none Option.none Option.none
    Option.none (Option.some "Mat".data) []

/-- Example material with no `name` attribute holding bitmap 5 in its
diffuse slot. -/
def anonMat : Material :=
  .mk (Option.some 5) Option.none Option.none Option.none Option.none
    Option.none Option.none []

/-- Empty example scene on a filesystem where every path exists. -/
def baseScene : Scene :=
  ⟨[], false, [], false, [], false, [], fun _ => true, id⟩

/-- Example scene with one resolvable XRef object. -/
def sceneA : Scene :=
  ⟨[exEntry], false, [], false, [], false, [], fun _ => true, id⟩

/-- Example scene with one bitmap owned by a named material. -/
def bmScene : Scene :=
  ⟨[], false, [], false, [exBitmap], false, [namedMat], fun _ => true, id⟩

/-- Example scene whose only bitmap has the falsy handle 0. -/
def bm0Scene : Scene :=
  ⟨[], false, [], false, [zeroBitmap], false, [], fun _ => true, id⟩

/-- Example update item addressing the bitmap with handle 0. -/
def item0 : Dict :=
  [("node_name", .str "Z".data), ("node_type", .str "bitmap_texture".data),
   ("path", .str "new.png".data),
   ("extra_data", .dict [("bitmap_handle", .num 0)])]

/-- Example update item addressing XRef object `A` with a backslashed path. -/
def itemX : Dict :=
  [("node_name", .str "A".data), ("node_type", .str "xref_object".data),
   ("path", .str "p\\q.max".data), ("extra_data", .dict [])]

/-- Helper: `scan_scene` is the ordered concatenation of the three scans. -/
theorem scanSceneEqConcat (s : Scene) :
    scan_scene s =
      scan_xref_objects s ++ (scan_xref_scenes s ++ scan_material_bitmaps s) := by
  simp [scan_scene]

/-- Helper: every record produced by the XRef scan loop beyond the incoming
accumulator comes from a successfully looked-up object with a `filename`
attribute whose value is a non-empty existing path. -/
theorem scanXRefLoop_mem (s : Scene) (coll : List XRefEntry) (ntype : Str) :
    ∀ (names : List (Nat × Str)) (acc : List Dict) (r : Dict),
      r ∈ scanXRefLoop s coll ntype names acc →
      r ∈ acc ∨ ∃ i nm o, getMAXFileObject coll nm = .ok (Option.some o) ∧
        o.hasFilename = true ∧ o.filename ≠ [] ∧
        s.pathExists o.filename = true ∧
        r = mkXRefDict nm ntype (s.normpath o.filename) i := by
  intro names
  induction names with
  | nil => intro acc r hr; exact Or.inl hr
  | cons head rest ih =>
    intro acc r hr
    obtain ⟨i, nm⟩ := head
    unfold scanXRefLoop at hr
    cases hg : getMAXFileObject coll nm with
    | error e => rw [hg] at hr; exact Or.inl hr
    | ok oo =>
      rw [hg] at hr
      cases oo with
      | none => dsimp only at hr; exact ih acc r hr
      | some o =>
        dsimp only at hr
        cases hf : o.hasFilename with
        | false => rw [hf] at hr; simp only [Bool.false_eq_true,
            if_false] at hr; exact ih acc r hr
        | true =>
          rw [hf] at hr
          simp only [if_true] at hr
          cases hc : (!o.filename.isEmpty && s.pathExists o.filename) with
          | false =>
            rw [hc] at hr
            simp only [Bool.false_eq_true, if_false] at hr
            exact ih acc r hr
          | true =>
            rw [hc] at hr
            simp only [if_true] at hr
            rcases ih _ r hr with hacc | hrec
            · rcases List.mem_append.mp hacc with h1 | h2
              · exact Or.inl h1
              · right
                refine ⟨i, nm, o, hg, hf, ?_, ?_, List.mem_singleton.mp h2⟩
                · have := (Bool.and_eq_true _ _).mp hc
                  intro hnil
                  rw [hnil] at this
                  simp at this
                · exact ((Bool.and_eq_true _ _).mp hc).2
            · exact Or.inr hrec

/-- Helper: every record produced by the bitmap scan loop beyond the
incoming accumulator comes from a bitmap with a truthy `filename` attribute
whose value is an existing path. -/
theorem scanBitmapsLoop_mem (s : Scene) :
    ∀ (bs : List Bitmap) (acc : List Dict) (r : Dict),
      r ∈ scanBitmapsLoop s bs acc →
      r ∈ acc ∨ ∃ b : Bitmap, b.hasFilename = true ∧ b.filename ≠ [] ∧
        s.pathExists b.filename = true ∧
        r = mkBitmapDict
          (bitmapNodeName
            (get_material_name_for_bitmap s.sceneMaterials b.handle) b.name)
          (s.normpath b.filename) b.handle
          (get_material_name_for_bitmap s.sceneMaterials b.handle) := by
  intro bs
  induction bs with
  | nil => intro acc r hr; exact Or.inl hr
  | cons b rest ih =>
    intro acc r hr
    unfold scanBitmapsLoop at hr
    cases h1 : (b.hasFilename && !b.filename.isEmpty) with
    | false =>
      rw [h1] at hr
      simp only [Bool.false_eq_true, if_false] at hr
      exact ih acc r hr
    | true =>
      rw [h1] at hr
      simp only [if_true] at hr
      cases h2 : (!b.filename.isEmpty && s.pathExists b.filename) with
      | false =>
        rw [h2] at hr
        simp only [Bool.false_eq_true, if_false] at hr
        exact ih acc r hr
      | true =>
        rw [h2] at hr
        simp only [if_true] at hr
        rcases ih _ r hr with hacc | hrec
        · rcases List.mem_append.mp hacc with ha | hb
          · exact Or.inl ha
          · right
            refine ⟨b, ((Bool.and_eq_true _ _).mp h1).1, ?_,
              ((Bool.and_eq_true _ _).mp h2).2, List.mem_singleton.mp hb⟩
            have := ((Bool.and_eq_true _ _).mp h2).1
            intro hnil
            rw [hnil] at this
            simp at this
        · exact Or.inr hrec

/-- Helper: records of `_scan_xref_objects` come from a resolvable object in
the `XRefObjects` collection with node type `xref_object`. -/
theorem scan_xref_objects_mem (s : Scene) (r : Dict)
    (hr : r ∈ scan_xref_objects s) :
    ∃ i nm o, getMAXFileObject s.xrefObjects nm = .ok (Option.some o) ∧
      o.hasFilename = true ∧ o.filename ≠ [] ∧
      s.pathExists o.filename = true ∧
      r = mkXRefDict nm "xref_object".data (s.normpath o.filename) i := by
  unfold scan_xref_objects at hr
  cases hfault : s.xrefObjectsNamesFault with
  | true => rw [hfault] at hr; simp at hr
  | false =>
    rw [hfault] at hr
    simp only [Bool.false_eq_true, if_false] at hr
    by_cases hemp : (s.xrefObjects.map XRefEntry.name).isEmpty
    · rw [if_pos hemp] at hr; simp at hr
    · rw [if_neg hemp] at hr
      rcases scanXRefLoop_mem s s.xrefObjects _ _ _ r hr with h | h
      · simp at h
      · exact h

/-- Helper: records of `_scan_xref_scenes` come from a resolvable object in
the `XRefScenes` collection with node type `xref_scene`. -/
theorem scan_xref_scenes_mem (s : Scene) (r : Dict)
    (hr : r ∈ scan_xref_scenes s) :
    ∃ i nm o, getMAXFileObject s.xrefScenes nm = .ok (Option.some o) ∧
      o.hasFilename = true ∧ o.filename ≠ [] ∧
      s.pathExists o.filename = true ∧
      r = mkXRefDict nm "xref_scene".data (s.normpath o.filename) i := by
  unfold scan_xref_scenes at hr
  cases hfault : s.xrefScenesNamesFault with
  | true => rw [hfault] at hr; simp at hr
  | false =>
    rw [hfault] at hr
    simp only [Bool.false_eq_true, if_false] at hr
    by_cases hemp : (s.xrefScenes.map XRefEntry.name).isEmpty
    · rw [if_pos hemp] at hr; simp at hr
    · rw [if_neg hemp] at hr
      rcases scanXRefLoop_mem s s.xrefScenes _ _ _ r hr with h | h
      · simp at h
      · exact h

/-- Helper: records of `_scan_material_bitmaps` come from a bitmap with a
truthy existing filename. -/
theorem scan_material_bitmaps_mem (s : Scene) (r : Dict)
    (hr : r ∈ scan_material_bitmaps s) :
    ∃ b : Bitmap, b.hasFilename = true ∧ b.filename ≠ [] ∧
      s.pathExists b.filename = true ∧
      r = mkBitmapDict
        (bitmapNodeName
          (get_material_name_for_bitmap s.sceneMaterials b.handle) b.name)
        (s.normpath b.filename) b.handle
        (get_material_name_for_bitmap s.sceneMaterials b.handle) := by
  unfold scan_material_bitmaps at hr
  cases hfault : s.bitmapsFault with
  | true => rw [hfault] at hr; simp at hr
  | false =>
    rw [hfault] at hr
    simp only [Bool.false_eq_true, if_false] at hr
    rcases scanBitmapsLoop_mem s s.bitmaps [] r hr with h | h
    · simp at h
    · exact h

mutual

/-- Helper: a true `_bitmap_in_material` check yields a spec derivation. -/
theorem bim_sound (h : Nat) (m : Material)
    (hb : bitmap_in_material h m = true) : ContainsSpec h m := by
  cases m with
  | mk d bu sp op re ml nm o =>
    cases ml with
    | none =>
      unfold bitmap_in_material at hb
      simp only [Bool.or_eq_true] at hb
      rcases hb with ((((h1 | h2) | h3) | h4) | h5)
      · exact .diffuse d bu sp op re _ nm o (by simpa [slotHits] using h1)
      · exact .bump d bu sp op re _ nm o (by simpa [slotHits] using h2)
      · exact .specular d bu sp op re _ nm o (by simpa [slotHits] using h3)
      · exact .opacity d bu sp op re _ nm o (by simpa [slotHits] using h4)
      · exact .reflection d bu sp op re _ nm o (by simpa [slotHits] using h5)
    | some subs =>
      unfold bitmap_in_material at hb
      simp only [Bool.or_eq_true] at hb
      rcases hb with (((((h1 | h2) | h3) | h4) | h5) | h6)
      · exact .diffuse d bu sp op re _ nm o (by simpa [slotHits] using h1)
      · exact .bump d bu sp op re _ nm o (by simpa [slotHits] using h2)
      · exact .specular d bu sp op re _ nm o (by simpa [slotHits] using h3)
      · exact .opacity d bu sp op re _ nm o (by simpa [slotHits] using h4)
      · exact .reflection d bu sp op re _ nm o (by simpa [slotHits] using h5)
      · obtain ⟨m', hmem, hc⟩ := subs_sound h subs h6
        exact .sub d bu sp op re subs nm o m' hmem hc

/-- Helper: a true sub-material loop check exhibits a containing non-null
sub-material. -/
theorem subs_sound (h : Nat) (l : List (Option Material))
    (hb : subsContain h l = true) :
    ∃ m, Option.some m ∈ l ∧ ContainsSpec h m := by
  match l with
  | [] => exact absurd hb (by simp [subsContain])
  | Option.none :: rest =>
    obtain ⟨m, hmem, hc⟩ := subs_sound h rest (by
      unfold subsContain at hb; exact hb)
    exact ⟨m, List.mem_cons_of_mem _ hmem, hc⟩
  | Option.some m :: rest =>
    unfold subsContain at hb
    rcases Bool.or_eq_true _ _ ▸ hb with h1 | h2
    · exact ⟨m, List.mem_cons_self _ _, bim_sound h m h1⟩
    · obtain ⟨m', hmem, hc⟩ := subs_sound h rest h2
      exact ⟨m', List.mem_cons_of_mem _ hmem, hc⟩

end

/-- Helper: a containing member of the sub-material list makes the loop
check true. -/
theorem subsContain_of_mem (h : Nat) :
    ∀ (l : List (Option Material)) (m : Material),
      Option.some m ∈ l → bitmap_in_material h m = true →
      subsContain h l = true := by
  intro l
  induction l with
  | nil => intro m hmem; simp at hmem
  | cons hd rest ih =>
    intro m hmem hb
    rcases List.mem_cons.mp hmem with heq | hmem'
    · rw [← heq]
      unfold subsContain
      rw [hb]
      simp
    · cases hd with
      | none => unfold subsContain; exact ih m hmem' hb
      | some m' =>
        unfold subsContain
        rw [ih m hmem' hb]
        simp

/-- Helper: every spec derivation makes `_bitmap_in_material` return true. -/
theorem bim_complete (h : Nat) (m : Material) (hc : ContainsSpec h m) :
    bitmap_in_material h m = true := by
  induction hc with
  | diffuse d bu sp op re ml nm o he =>
    cases ml <;> unfold bitmap_in_material <;>
      simp [slotHits, he]
  | bump d bu sp op re ml nm o he =>
    cases ml <;> unfold bitmap_in_material <;>
      simp [slotHits, he]
  | specular d bu sp op re ml nm o he =>
    cases ml <;> unfold bitmap_in_material <;>
      simp [slotHits, he]
  | opacity d bu sp op re ml nm o he =>
    cases ml <;> unfold bitmap_in_material <;>
      simp [slotHits, he]
  | reflection d bu sp op re ml nm o he =>
    cases ml <;> unfold bitmap_in_material <;>
      simp [slotHits, he]
  | sub d bu sp op re subs nm o m' hmem hc' ih =>
    unfold bitmap_in_material
    rw [subsContain_of_mem h subs m' hmem ih]
    simp

/-- C4: `_bitmap_in_material` is a containment check over a fixed set of
named slots: for every bitmap and material, it returns `True` if and only if
the bitmap equals one of the material's five maps (`diffuseMap`, `bumpMap`,
`specularMap`, `opacityMap`, `reflectionMap`), or some non-null sub-material
in the material's `materialList` recursively contains the bitmap; no other
slot is examined. -/
theorem bitmap_in_material_iff_spec (h : Nat) (m : Material) :
    bitmap_in_material h m = true ↔ ContainsSpec h m :=
  ⟨bim_sound h m, bim_complete h m⟩

/-- C5 counterexample: a material with no `name` attribute contains bitmap 5,
yet `_get_material_name_for_bitmap` returns `None`, although the claim
states that `None` is returned only when no scene material contains the
bitmap. -/
theorem nameless_material_yields_none :
    bitmap_in_material 5 anonMat = true ∧
      get_material_name_for_bitmap [anonMat] 5 = Option.none :=
  ⟨rfl, rfl⟩

/-- C5 amended: `_get_material_name_for_bitmap` returns the optional `name`
attribute of the first material in iteration order that contains the bitmap
(so `None` when that material has no `name` attribute), and `None` when no
scene material contains the bitmap. -/
theorem get_material_name_eq_find_bind (mats : List Material) (h : Nat) :
    get_material_name_for_bitmap mats h =
      (mats.find? (fun m => bitmap_in_material h m)).bind Material.nameAttr := by
  induction mats with
  | nil => rfl
  | cons m rest ih =>
    unfold get_material_name_for_bitmap
    cases hb : bitmap_in_material h m with
    | true => simp [List.find?, hb]
    | false => simp [List.find?, hb, ih]

/-- C6: for every scene state, the list returned by `scan_scene` is exactly
the concatenation, in this order, of the XRef-object scan results, the
XRef-scene scan results, and the material-bitmap scan results. -/
theorem scan_scene_is_ordered_concat (s : Scene) :
    scan_scene s =
      scan_xref_objects s ++ (scan_xref_scenes s ++ scan_material_bitmaps s) :=
  scanSceneEqConcat s

/-- C1: every element of the list returned by `scan_scene` is a dictionary
with exactly the four keys `node_name`, `node_type`, `path`, `extra_data`,
and its `node_type` value is one of `xref_object`, `xref_scene`,
`bitmap_texture`. -/
theorem scan_records_have_four_keys_and_known_type (s : Scene) (r : Dict)
    (hr : r ∈ scan_scene s) :
    r.map Prod.fst = ["node_name", "node_type", "path", "extra_data"] ∧
    ∃ t : Str, dictGet r "node_type" = Option.some (PyVal.str t) ∧
      (t = "xref_object".data ∨ t = "xref_scene".data ∨
        t = "bitmap_texture".data) := by
  rw [scanSceneEqConcat] at hr
  rcases List.mem_append.mp hr with h1 | h23
  · obtain ⟨i, nm, o, _, _, _, _, hre⟩ := scan_xref_objects_mem s r h1
    subst hre
    exact ⟨rfl, "xref_object".data, rfl, Or.inl rfl⟩
  · rcases List.mem_append.mp h23 with h2 | h3
    · obtain ⟨i, nm, o, _, _, _, _, hre⟩ := scan_xref_scenes_mem s r h2
      subst hre
      exact ⟨rfl, "xref_scene".data, rfl, Or.inr (Or.inl rfl)⟩
    · obtain ⟨b, _, _, _, hre⟩ := scan_material_bitmaps_mem s r h3
      subst hre
      exact ⟨rfl, "bitmap_texture".data, rfl, Or.inr (Or.inr rfl)⟩

/-- C1 witness: in the one-XRef example scene, the single scan record has the
four keys and a known node type. -/
theorem scan_records_have_four_keys_and_known_type_witness :
    (mkXRefDict "A".data "xref_object".data "A.max".data 0).map Prod.fst =
        ["node_name", "node_type", "path", "extra_data"] ∧
    ∃ t : Str,
      dictGet (mkXRefDict "A".data "xref_object".data "A.max".data 0)
          "node_type" = Option.some (PyVal.str t) ∧
      (t = "xref_object".data ∨ t = "xref_scene".data ∨
        t = "bitmap_texture".data) :=
  scan_records_have_four_keys_and_known_type sceneA
    (mkXRefDict "A".data "xref_object".data "A.max".data 0)
    (List.mem_singleton.mpr rfl)

/-- C9: every record returned by `scan_scene` carries a `path` value that is
`os.path.normpath` of a filename that was non-empty and existed at scan
time. -/
theorem scan_paths_normpath_of_existing (s : Scene) (r : Dict)
    (hr : r ∈ scan_scene s) :
    ∃ fp : Str, fp ≠ [] ∧ s.pathExists fp = true ∧
      dictGet r "path" = Option.some (PyVal.str (s.normpath fp)) := by
  rw [scanSceneEqConcat] at hr
  rcases List.mem_append.mp hr with h1 | h23
  · obtain ⟨i, nm, o, _, _, hne, hex, hre⟩ := scan_xref_objects_mem s r h1
    subst hre
    exact ⟨o.filename, hne, hex, rfl⟩
  · rcases List.mem_append.mp h23 with h2 | h3
    · obtain ⟨i, nm, o, _, _, hne, hex, hre⟩ := scan_xref_scenes_mem s r h2
      subst hre
      exact ⟨o.filename, hne, hex, rfl⟩
    · obtain ⟨b, _, hne, hex, hre⟩ := scan_material_bitmaps_mem s r h3
      subst hre
      exact ⟨b.filename, hne, hex, rfl⟩

/-- C9 witness: the record of the one-XRef example scene stores the
normalized existing filename `A.max`. -/
theorem scan_paths_normpath_of_existing_witness :
    ∃ fp : Str, fp ≠ [] ∧ sceneA.pathExists fp = true ∧
      dictGet (mkXRefDict "A".data "xref_object".data "A.max".data 0) "path" =
        Option.some (PyVal.str (sceneA.normpath fp)) :=
  scan_paths_normpath_of_existing sceneA
    (mkXRefDict "A".data "xref_object".data "A.max".data 0)
    (List.mem_singleton.mpr rfl)

/-- C2 counterexample: `update` applied to an empty item dictionary raises
`KeyError` (the `item["node_name"]` subscript is evaluated before any
`try`), so exceptions are not swallowed for every item passed to `update`. -/
theorem update_raises_keyerror_on_empty_item :
    update baseScene [] = .error .keyError := rfl

/-- C2 amended: the scan helpers never propagate a host exception — a scan
loop that hits an error returns exactly the records gathered before the
faulting entry — and `update` never propagates an exception provided the
item dictionary carries `node_name` and `node_type` keys and a string
`path`; an item missing one of those keys (or with a non-string path)
raises to the caller. -/
theorem scan_swallows_update_needs_keys (s : Scene) (coll : List XRefEntry)
    (ntype : Str) (pre : List (Nat × Str)) (i : Nat) (nm : Str)
    (post : List (Nat × Str)) (acc : List Dict) (e : PyErr)
    (item : Dict) (p : Str) :
    (getMAXFileObject coll nm = .error e →
      scanXRefLoop s coll ntype (pre ++ (i, nm) :: post) acc =
        scanXRefLoop s coll ntype pre acc) ∧
    ((dictGet item "node_name").isSome = true →
      (dictGet item "node_type").isSome = true →
      dictGet item "path" = Option.some (PyVal.str p) →
      ∃ effs, update s item = .ok effs) := by
  constructor
  · intro he
    induction pre generalizing acc with
    | nil =>
      simp only [List.nil_append]
      unfold scanXRefLoop
      rw [he]
    | cons hd rest ih =>
      obtain ⟨j, nm2⟩ := hd
      simp only [List.cons_append]
      unfold scanXRefLoop
      cases hg : getMAXFileObject coll nm2 with
      | error e2 => rfl
      | ok oo =>
        cases oo with
        | none => dsimp only; exact ih acc
        | some o =>
          dsimp only
          cases hf : o.hasFilename with
          | false =>
            simp only [hf, Bool.false_eq_true, if_false]
            exact ih acc
          | true =>
            simp only [hf, if_true]
            cases hc : (!o.filename.isEmpty && s.pathExists o.filename) with
            | false =>
              simp only [hc, Bool.false_eq_true, if_false]
              exact ih acc
            | true =>
              simp only [hc, if_true]
              exact ih _
  · intro h1 h2 h3
    obtain ⟨v1, hv1⟩ := Option.isSome_iff_exists.mp h1
    obtain ⟨v2, hv2⟩ := Option.isSome_iff_exists.mp h2
    unfold update
    simp only [pyIndex, hv1, hv2, h3]
    dsimp only [pyReplaceBackslash]
    split_ifs <;> exact ⟨_, rfl⟩

/-- C2 amended witness: a faulting lookup truncates the XRef scan loop at
the fault, and a well-formed item makes `update` return normally. -/
theorem scan_swallows_update_needs_keys_witness :
    (scanXRefLoop baseScene [faultEntry] "xref_object".data
        ([] ++ (0, "F".data) :: []) [] =
      scanXRefLoop baseScene [faultEntry] "xref_object".data [] []) ∧
    ∃ effs, update sceneA itemX = .ok effs := by
  constructor
  · exact (scan_swallows_update_needs_keys baseScene [faultEntry]
      "xref_object".data [] 0 "F".data [] [] .hostError [] []).1 rfl
  · exact (scan_swallows_update_needs_keys sceneA [] [] [] 0 [] [] [] .keyError
      itemX "p\\q.max".data).2 rfl rfl rfl

/-- C3 counterexample: the scene holds a bitmap with node handle 0, and the
update item carries `bitmap_handle` 0, yet `update` performs no host effect
at all — `if bitmap_handle:` rejects the falsy handle before any lookup — so
the claim's "look the object up by handle and overwrite `filename`" fails at
this input. -/
theorem update_skips_zero_bitmap_handle :
    (bm0Scene.bitmaps.find? (fun b => b.handle == 0)).isSome = true ∧
      update bm0Scene item0 = .ok [] :=
  ⟨rfl, rfl⟩

/-- C3 amended: for an item with string `node_name`, string `path` and dict
`extra_data`, `update` looks the host object back up by name (for xrefs) or
— provided the stored `bitmap_handle` is a non-zero integer, a falsy handle
being rejected without any lookup — by handle (for bitmaps); when the object
is found the trace is exactly one `filename` write followed by the host
reload call, and when it is not found (or the lookup raises) no host state
changes. -/
theorem update_effect_trace_amended (s : Scene) (item : Dict) (nn p : Str)
    (ed : Dict)
    (hnn : dictGet item "node_name" = Option.some (PyVal.str nn))
    (hp : dictGet item "path" = Option.some (PyVal.str p))
    (hed : (dictGet item "extra_data").getD (PyVal.dict []) = PyVal.dict ed) :
    (dictGet item "node_type" = Option.some (PyVal.str "xref_object".data) →
      update s item = .ok (match getMAXFileObject s.xrefObjects nn with
        | .ok (Option.some _) =>
            [Effect.setXRefFilename "XRefObjects" nn (replaceBS p),
             Effect.reloadMAXFile "XRefObjects" nn]
        | _ => [])) ∧
    (dictGet item "node_type" = Option.some (PyVal.str "xref_scene".data) →
      update s item = .ok (match getMAXFileObject s.xrefScenes nn with
        | .ok (Option.some _) =>
            [Effect.setXRefFilename "XRefScenes" nn (replaceBS p),
             Effect.reloadMAXFile "XRefScenes" nn]
        | _ => [])) ∧
    (∀ h : Nat,
      dictGet item "node_type" =
          Option.some (PyVal.str "bitmap_texture".data) →
      (dictGet ed "bitmap_handle").getD PyVal.nonev = PyVal.num h → h ≠ 0 →
      update s item = .ok (match s.bitmaps.find? (fun b => b.handle == h) with
        | Option.some _ =>
            [Effect.setBitmapFilename h (replaceBS p), Effect.bitmapReload h]
        | Option.none => [])) := by
  refine ⟨?_, ?_, ?_⟩
  · intro ht
    unfold update
    simp only [pyIndex, hnn, ht, hp]
    dsimp only [pyReplaceBackslash]
    simp only [pyEqStr, beq_self_eq_true, if_true]
    unfold update_xref_object updateXRefCommon
    rw [hed]
    dsimp only [pyGetAttrDefault]
    cases hg : getMAXFileObject s.xrefObjects nn with
    | error e => rfl
    | ok oo => cases oo <;> rfl
  · intro ht
    unfold update
    simp only [pyIndex, hnn, ht, hp]
    dsimp only [pyReplaceBackslash]
    have hne : pyEqStr (PyVal.str "xref_scene".data) "xref_object".data
        = false := by decide
    simp only [pyEqStr, hne, Bool.false_eq_true, if_false, beq_self_eq_true,
      if_true]
    unfold update_xref_scene updateXRefCommon
    rw [hed]
    dsimp only [pyGetAttrDefault]
    cases hg : getMAXFileObject s.xrefScenes nn with
    | error e => rfl
    | ok oo => cases oo <;> rfl
  · intro h ht hh hnz
    unfold update
    simp only [pyIndex, hnn, ht, hp]
    dsimp only [pyReplaceBackslash]
    have hne1 : pyEqStr (PyVal.str "bitmap_texture".data) "xref_object".data
        = false := by decide
    have hne2 : pyEqStr (PyVal.str "bitmap_texture".data) "xref_scene".data
        = false := by decide
    simp only [pyEqStr, hne1, hne2, Bool.false_eq_true, if_false,
      beq_self_eq_true, if_true]
    unfold update_bitmap_texture
    rw [hed]
    dsimp only [pyGetAttrDefault]
    rw [hh]
    have htr : pyTruthy (PyVal.num h) = true := by
      simp [pyTruthy, hnz]
    rw [htr]
    simp only [if_true]
    cases hg : s.bitmaps.find? (fun b => b.handle == h) with
    | none => rfl
    | some b => rfl

/-- C3 amended witness: updating the found XRef object `A` produces exactly
the filename write followed by the reload, in that order. -/
theorem update_effect_trace_amended_witness :
    update sceneA itemX =
      .ok (match getMAXFileObject sceneA.xrefObjects "A".data with
        | .ok (Option.some _) =>
            [Effect.setXRefFilename "XRefObjects" "A".data
              (replaceBS "p\\q.max".data),
             Effect.reloadMAXFile "XRefObjects" "A".data]
        | _ => []) :=
  (update_effect_trace_amended sceneA itemX "A".data "p\\q.max".data []
    rfl rfl rfl).1 rfl

/-- C7 counterexample: on a scene with one bitmap owned by a named material,
the two duplicate copies' scans disagree — the traversal-bearing copy
prefixes the owning material's name to the record's `node_name`, the simpler
copy does not — so the copies are not observationally equal. -/
theorem copies_differ_on_owned_bitmap :
    scan_scene bmScene ≠ scan_scene_simple bmScene := by
  intro h
  have h1 : (scan_scene bmScene).map (fun r => dictGet r "node_name") =
      [Option.some (PyVal.str "Mat_bitmap_B".data)] := rfl
  rw [h] at h1
  have h2 : (scan_scene_simple bmScene).map (fun r => dictGet r "node_name") =
      [Option.some (PyVal.str "unknown_bitmap_B".data)] := rfl
  rw [h2] at h1
  simp only [List.cons.injEq, Option.some.injEq, PyVal.str.injEq] at h1
  exact absurd h1.1 (by decide)

/-- Helper: with no scene materials, the two copies' bitmap scan loops
agree. -/
theorem scanBitmapsLoop_no_materials (s : Scene)
    (hmat : s.sceneMaterials = []) :
    ∀ (bs : List Bitmap) (acc : List Dict),
      scanBitmapsLoop s bs acc = scanBitmapsLoopSimple s bs acc := by
  intro bs
  induction bs with
  | nil => intro acc; rfl
  | cons b rest ih =>
    intro acc
    unfold scanBitmapsLoop scanBitmapsLoopSimple
    rw [hmat]
    cases h1 : (b.hasFilename && !b.filename.isEmpty) with
    | false =>
      simp only [h1, Bool.false_eq_true, if_false]
      exact ih acc
    | true =>
      simp only [h1, if_true]
      cases h2 : (!b.filename.isEmpty && s.pathExists b.filename) with
      | false =>
        simp only [h2, Bool.false_eq_true, if_false]
        exact ih acc
      | true =>
        simp only [h2, if_true]
        dsimp only [get_material_name_for_bitmap]
        exact ih _

/-- C7 amended: the two duplicate copies implement the same two operations;
their `update` operations are observationally equal on every input, and
their `scan_scene` operations agree on every scene whose material list is
empty (they differ exactly in the owning-material data attached to bitmap
records). -/
theorem copies_agree_amended :
    (∀ (s : Scene) (item : Dict), update_simple s item = update s item) ∧
    (∀ s : Scene, s.sceneMaterials = [] →
      scan_scene_simple s = scan_scene s) := by
  constructor
  · intro s item
    rfl
  · intro s hmat
    have hb : scan_material_bitmaps_simple s = scan_material_bitmaps s := by
      unfold scan_material_bitmaps_simple scan_material_bitmaps
      cases hf : s.bitmapsFault with
      | true => rfl
      | false => exact (scanBitmapsLoop_no_materials s hmat s.bitmaps []).symm
    unfold scan_scene_simple scan_scene
    rw [hb]

/-- C7 amended witness: both parts applied to the empty example scene. -/
theorem copies_agree_amended_witness :
    update_simple baseScene [] = update baseScene [] ∧
      scan_scene_simple baseScene = scan_scene baseScene :=
  ⟨copies_agree_amended.1 baseScene [], copies_agree_amended.2 baseScene rfl⟩

/-- C8: whenever the `XRefObjects` name list is obtained and is non-empty,
`_get_xref_objects` raises `NameError`, because its loop body reads the
never-assigned variable `xref_name` while iterating `object_name`. -/
theorem get_xref_objects_raises_nameerror (s : Scene)
    (hf : s.xrefObjectsNamesFault = false)
    (hne : s.xrefObjects.map XRefEntry.name ≠ []) :
    get_xref_objects s = .error .nameError := by
  unfold get_xref_objects
  rw [hf]
  simp only [Bool.false_eq_true, if_false]
  rcases hm : s.xrefObjects.map XRefEntry.name with _ | ⟨a, l⟩
  · exact absurd hm hne
  · rfl

/-- C8 witness: the one-XRef example scene makes `_get_xref_objects` raise
`NameError`. -/
theorem get_xref_objects_raises_nameerror_witness :
    get_xref_objects sceneA = .error .nameError :=
  get_xref_objects_raises_nameerror sceneA rfl (List.cons_ne_nil _ _)

/-- Helper: the substituted path contains no backslash. -/
theorem replaceBS_no_backslash (cs : Str) : '\\' ∉ replaceBS cs := by
  intro hmem
  obtain ⟨c, _, hc⟩ := List.mem_map.mp hmem
  by_cases h : c = '\\' <;> simp [h] at hc

/-- Helper: every path written by the shared XRef update body is the path it
was given. -/
theorem updateXRefCommon_written (coll : List XRefEntry) (collName : String)
    (nodeName : PyVal) (path : Str) (extraData : PyVal) :
    ∀ e ∈ updateXRefCommon coll collName nodeName path extraData,
      ∀ q, effectWrittenPath e = Option.some q → q = path := by
  intro e he q hq
  unfold updateXRefCommon at he
  cases hga : pyGetAttrDefault extraData "xref_index" (PyVal.num 0) with
  | error e1 => rw [hga] at he; simp at he
  | ok v =>
    rw [hga] at he
    cases nodeName with
    | str nm =>
      dsimp only at he
      cases hg : getMAXFileObject coll nm with
      | error e2 => rw [hg] at he; simp at he
      | ok oo =>
        rw [hg] at he
        cases oo with
        | none => simp at he
        | some o =>
          dsimp only at he
          rcases List.mem_cons.mp he with rfl | he2
          · exact (Option.some.inj hq).symm
          · rw [List.mem_singleton.mp he2] at hq
            exact Option.noConfusion hq
    | num n => simp at he
    | dict d => simp at he
    | nonev => simp at he

/-- Helper: every path written by the bitmap update body is the path it was
given. -/
theorem update_bitmap_written (s : Scene) (path : Str) (extraData : PyVal) :
    ∀ e ∈ update_bitmap_texture s path extraData,
      ∀ q, effectWrittenPath e = Option.some q → q = path := by
  intro e he q hq
  unfold update_bitmap_texture at he
  cases hga : pyGetAttrDefault extraData "bitmap_handle" PyVal.nonev with
  | error e1 => rw [hga] at he; simp at he
  | ok hv =>
    rw [hga] at he
    dsimp only at he
    cases htr : pyTruthy hv with
    | false => rw [htr] at he; simp at he
    | true =>
      rw [htr] at he
      simp only [if_true] at he
      cases hv with
      | num h =>
        dsimp only at he
        cases hfind : s.bitmaps.find? (fun b => b.handle == h) with
        | none => rw [hfind] at he; simp at he
        | some b =>
          rw [hfind] at he
          dsimp only at he
          rcases List.mem_cons.mp he with rfl | he2
          · exact (Option.some.inj hq).symm
          · rw [List.mem_singleton.mp he2] at hq
            exact Option.noConfusion hq
      | str s2 => simp at he
      | dict d => simp at he
      | nonev => simp at he

/-- C10: for every item passed to `update` whose `path` value is the string
`p`, every path written to a host object's `filename` attribute is `p` with
every backslash replaced by a forward slash, and so contains no backslash;
the replacement is shared by all three node types. -/
theorem update_writes_backslash_free_paths (s : Scene) (item : Dict)
    (p : Str) (hp : dictGet item "path" = Option.some (PyVal.str p))
    (effs : List Effect) (hok : update s item = .ok effs) :
    ∀ e ∈ effs, ∀ q, effectWrittenPath e = Option.some q →
      q = replaceBS p ∧ '\\' ∉ q := by
  intro e he q hq
  unfold update at hok
  cases hn : pyIndex item "node_name" with
  | error e1 => rw [hn] at hok; exact Except.noConfusion hok
  | ok v1 =>
    rw [hn] at hok
    cases ht : pyIndex item "node_type" with
    | error e1 => rw [ht] at hok; exact Except.noConfusion hok
    | ok v2 =>
      rw [ht] at hok
      have hp' : pyIndex item "path" = .ok (PyVal.str p) := by
        simp [pyIndex, hp]
      rw [hp'] at hok
      dsimp only [pyReplaceBackslash] at hok
      split_ifs at hok
      · have heff := (Except.ok.inj hok).symm
        subst heff
        constructor
        · exact updateXRefCommon_written s.xrefObjects "XRefObjects" v1
            (replaceBS p) _ e he q hq
        · have hqp : q = replaceBS p :=
            updateXRefCommon_written s.xrefObjects "XRefObjects" v1
              (replaceBS p) _ e he q hq
          rw [hqp]
          exact replaceBS_no_backslash p
      · have heff := (Except.ok.inj hok).symm
        subst heff
        have hqp : q = replaceBS p :=
          updateXRefCommon_written s.xrefScenes "XRefScenes" v1
            (replaceBS p) _ e he q hq
        exact ⟨hqp, hqp ▸ replaceBS_no_backslash p⟩
      · have heff := (Except.ok.inj hok).symm
        subst heff
        have hqp : q = replaceBS p :=
          update_bitmap_written s (replaceBS p) _ e he q hq
        exact ⟨hqp, hqp ▸ replaceBS_no_backslash p⟩
      · have heff := (Except.ok.inj hok).symm
        subst heff
        simp at he

/-- C10 witness: updating XRef object `A` with the backslashed path
`p\q.max` writes exactly the forward-slashed path. -/
theorem update_writes_backslash_free_paths_witness :
    "p/q.max".data = replaceBS "p\\q.max".data ∧
      '\\' ∉ "p/q.max".data :=
  update_writes_backslash_free_paths sceneA itemX "p\\q.max".data rfl
    [Effect.setXRefFilename "XRefObjects" "A".data "p/q.max".data,
     Effect.reloadMAXFile "XRefObjects" "A".data] rfl
    (Effect.setXRefFilename "XRefObjects" "A".data "p/q.max".data)
    (List.mem_cons_self _ _) "p/q.max".data rfl
